import Mathlib

/-!
Verification of the wg_backend core of the vpn-wireguard-manager repository.

The Python modules src/wg_backend/{models,ipam,state,wireguard,init_server,
firewall}.py are shallowly embedded below.  Python dicts keyed by strings are
modelled as insertion-ordered association lists; IPv4 addresses are modelled
as natural numbers below 2^32; Python exceptions become explicit result
constructors.  External collaborators (the wg key generator, the filesystem,
iptables, wg-quick) are modelled by explicit environment records and action
traces, so that every code path of the embedded functions is a total Lean
function.
-/

namespace WgBackend

/-! ## Generic string helpers (Python str semantics) -/

/-- Python single-character str.split: split a character list at every
occurrence of the separator, keeping empty pieces (like "a//b".split("/")). -/
def splitChar (sep : Char) : List Char → List (List Char)
  | [] => [[]]
  | c :: rest =>
    let groups := splitChar sep rest
    if c = sep then [] :: groups
    else
      match groups with
      | g :: gs => (c :: g) :: gs
      | [] => [[c]]

/-- Decide whether the first list is an initial segment of the second. -/
def startsWithL (needle hay : List Char) : Bool :=
  match needle, hay with
  | [], _ => true
  | _ :: _, [] => false
  | a :: ns, b :: hs => a = b && startsWithL ns hs

/-- Python substring containment (the binary in operator on str). -/
def containsSeq (needle : List Char) : List Char → Bool
  | [] => startsWithL needle []
  | c :: rest => startsWithL needle (c :: rest) || containsSeq needle rest

/-- Python needle in hay, on strings. -/
def pyContains (needle hay : String) : Bool :=
  containsSeq needle.data hay.data

/-- Characters considered whitespace by Python str.strip / str.split. -/
def isPySpace (c : Char) : Bool :=
  c = ' ' || c = '\t' || c = '\n' || c = '\x0b' || c = '\x0c' || c = '\r'

/-- Python truthiness test not s.strip(): the string is empty or whitespace. -/
def pyBlank (s : String) : Bool :=
  s.data.all isPySpace

/-- Python str.strip(): drop leading and trailing whitespace. -/
def pyStrip (s : String) : String :=
  ⟨((s.data.dropWhile isPySpace).reverse.dropWhile isPySpace).reverse⟩

/-- Python "\n".join(lines). -/
def joinNL : List String → String
  | [] => ""
  | [x] => x
  | x :: xs => x ++ "\n" ++ joinNL xs

/-- Python " ".join(tokens). -/
def joinSp : List String → String
  | [] => ""
  | [x] => x
  | x :: xs => x ++ " " ++ joinSp xs

/-- Python ", ".join(tokens). -/
def joinComma : List String → String
  | [] => ""
  | [x] => x
  | x :: xs => x ++ ", " ++ joinComma xs

/-- Python str.split() with no argument: split on whitespace runs,
dropping empty pieces. -/
def pySplitWs (s : String) : List String :=
  (((s.data.foldr
      (fun c groups =>
        match groups with
        | [] => if isPySpace c then [] else [[c]]
        | g :: gs => if isPySpace c then [] :: g :: gs else (c :: g) :: gs)
      ([] : List (List Char))).filter (fun g => g ≠ [])).map
    (fun g => (⟨g⟩ : String)))

/-- Escape one character the way Python repr escapes it inside a quoted
string (non-printable hex escapes other than the common ones are elided). -/
def pyReprEscape (q : Char) (c : Char) : List Char :=
  if c = '\\' then ['\\', '\\']
  else if c = q then ['\\', q]
  else if c = '\n' then ['\\', 'n']
  else if c = '\r' then ['\\', 'r']
  else if c = '\t' then ['\\', 't']
  else [c]

/-- Python repr of a str: single quotes unless the string holds a single
quote and no double quote. -/
def pyRepr (s : String) : String :=
  let q := if s.data.contains '\'' && !(s.data.contains '"') then '"' else '\''
  ⟨q :: (s.data.flatMap (pyReprEscape q)) ++ [q]⟩

/-! ## IPv4 parsing (Python ipaddress module, dotted-quad inputs) -/

/-- Numeric value of a decimal digit list (no validity check). -/
def decVal (l : List Char) : Nat :=
  l.foldl (fun n c => n * 10 + (c.toNat - 48)) 0

/-- Parse one IPv4 octet the way ipaddress does: 1-3 decimal digits, no
leading zero, value at most 255. -/
def parseOctet (l : List Char) : Option Nat :=
  if l = [] then none
  else if !(l.all Char.isDigit) then none
  else if l.length > 3 then none
  else if l.length > 1 && l.head? = some '0' then none
  else
    let n := decVal l
    if n ≤ 255 then some n else none

/-- Parse a dotted-quad IPv4 address to its 32-bit numeric value
(ipaddress.ip_address for IPv4 strings). -/
def parseIPv4 (s : String) : Option Nat :=
  match splitChar '.' s.data with
  | [a, b, c, d] =>
    match parseOctet a, parseOctet b, parseOctet c, parseOctet d with
    | some x, some y, some z, some w => some (((x * 256 + y) * 256 + z) * 256 + w)
    | _, _, _, _ => none
  | _ => none

/-- Parse a prefix length: decimal digits with value at most 32. -/
def parsePlen (l : List Char) : Option Nat :=
  if l = [] then none
  else if !(l.all Char.isDigit) then none
  else
    let n := decVal l
    if n ≤ 32 then some n else none

/-- ipaddress.ip_interface for IPv4 strings: an address with an optional
numeric prefix length (host bits allowed); a bare address gets prefix 32. -/
def parseInterfaceAddr (s : String) : Option (Nat × Nat) :=
  match splitChar '/' s.data with
  | [a] => (parseIPv4 (⟨a⟩ : String)).map (fun ip => (ip, 32))
  | [a, p] =>
    match parseIPv4 (⟨a⟩ : String), parsePlen p with
    | some ip, some pl => some (ip, pl)
    | _, _ => none
  | _ => none

/-- Clear the host bits of an address under the given prefix length. -/
def maskIp (ip pl : Nat) : Nat :=
  ip - ip % 2 ^ (32 - pl)

/-- ipaddress.ip_network(s, strict=False): host bits are masked off.
Returns (network address, prefix length). -/
def parseNetworkLoose (s : String) : Option (Nat × Nat) :=
  (parseInterfaceAddr s).map (fun ipl => (maskIp ipl.1 ipl.2, ipl.2))

/-- ipaddress.ip_network(s) with the default strict=True: fails when host
bits are set. -/
def parseNetworkStrict (s : String) : Option (Nat × Nat) :=
  (parseInterfaceAddr s).bind
    (fun ipl => if maskIp ipl.1 ipl.2 = ipl.1 then some ipl else none)

/-- str(IPv4Address): render a 32-bit value as a dotted quad. -/
def ipToString (ip : Nat) : String :=
  toString (ip / 16777216 % 256) ++ "." ++ toString (ip / 65536 % 256) ++ "." ++
    toString (ip / 256 % 256) ++ "." ++ toString (ip % 256)

/-- str(IPv4Interface): dotted quad followed by the prefix length. -/
def interfaceToString (ip pl : Nat) : String :=
  ipToString ip ++ "/" ++ toString pl

/-- Membership of an address in a network whose base is already masked
(Python addr in network). -/
def inNet (a base pl : Nat) : Bool :=
  maskIp a pl = base

/-- The broadcast address of a network. -/
def broadcastOf (base pl : Nat) : Nat :=
  base + 2 ^ (32 - pl) - 1

/-! ## Data model (src/wg_backend/models.py) -/

/-- One VPN client identity (dataclass Peer). -/
structure Peer where
  name : String
  private_key : String
  public_key : String
  ip : String
  allowed_ips : List String
  preshared_key : Option String
deriving DecidableEq

/-- The single VPN endpoint (dataclass ServerState). -/
structure ServerState where
  interface : String
  listen_port : Int
  private_key : String
  public_key : String
  address : String
  endpoint : Option String
  dns : Option (List String)
deriving DecidableEq

/-- Aggregate root (dataclass GlobalState).  The Python peers dict is an
insertion-ordered mapping from peer name to Peer, modelled as an
association list. -/
structure GlobalState where
  network_cidr : String
  server : ServerState
  peers : List (String × Peer)
deriving DecidableEq

/-- The keys of the peers mapping. -/
def peerNames (st : GlobalState) : List String :=
  st.peers.map Prod.fst

/-! ## IP allocator (src/wg_backend/ipam.py) -/

/-- Python s.split("/")[0]. -/
def beforeSlash (s : String) : String :=
  ⟨(splitChar '/' s.data).headD []⟩

/-- Parse the bare addresses of all peers, in dict order; none when any
ip_address call raises ValueError. -/
def peersIps : List (String × Peer) → Option (List Nat)
  | [] => some []
  | (_, p) :: rest =>
    match parseIPv4 (beforeSlash p.ip), peersIps rest with
    | some a, some l => some (a :: l)
    | _, _ => none

/-- get_used_ips: the server address, every peer address, and the network
and broadcast addresses of network_cidr.  none models a ValueError raised
by ip_network or ip_address. -/
def get_used_ips (st : GlobalState) : Option (List Nat) :=
  match parseNetworkStrict st.network_cidr with
  | none => none
  | some (base, pl) =>
    match parseIPv4 (beforeSlash st.server.address) with
    | none => none
    | some sip =>
      match peersIps st.peers with
      | none => none
      | some pips => some (sip :: pips ++ [base, broadcastOf base pl])

/-- IPv4Network.hosts(): the usable host addresses in ascending order. -/
def hostsList (base pl : Nat) : List Nat :=
  if pl = 32 then [base]
  else if pl = 31 then [base, base + 1]
  else (List.range (2 ^ (32 - pl) - 2)).map (fun i => base + 1 + i)

/-- Outcome of allocate_ip: a fresh /32 CIDR, a ValueError from address
parsing, or the RuntimeError raised when the pool is exhausted (the
ExhaustedError of the spec taxonomy). -/
inductive AllocResult where
  | ok (address : String)
  | valueError
  | exhausted
deriving DecidableEq

/-- allocate_ip: scan the hosts of network_cidr in ascending order and
return the first one that is not used, as a /32 CIDR string. -/
def allocate_ip (st : GlobalState) : AllocResult :=
  match parseNetworkStrict st.network_cidr with
  | none => .valueError
  | some (base, pl) =>
    match get_used_ips st with
    | none => .valueError
    | some used =>
      match (hostsList base pl).find? (fun h => !(used.contains h)) with
      | some h => .ok (ipToString h ++ "/32")
      | none => .exhausted

/-! ## Peer management (src/wg_backend/wireguard.py) -/

/-- Outcome of add_peer.  The keypair and optional preshared key produced
by the external wg binary are passed in as parameters (priv, pub, psk). -/
inductive AddPeerResult where
  | ok (st : GlobalState) (p : Peer)
  | duplicate
  | allocValueError
  | allocExhausted
deriving DecidableEq

/-- add_peer: reject an existing name, allocate an IP, build the Peer with
allowed_ips = [network_cidr] and insert it at the end of the dict. -/
def add_peer (st : GlobalState) (name priv pub : String) (psk : Option String) :
    AddPeerResult :=
  if (peerNames st).contains name then .duplicate
  else
    match allocate_ip st with
    | .valueError => .allocValueError
    | .exhausted => .allocExhausted
    | .ok ip =>
      let p : Peer := ⟨name, priv, pub, ip, [st.network_cidr], psk⟩
      .ok { st with peers := st.peers ++ [(name, p)] } p

/-- remove_peer: delete the named peer wholesale; none models the KeyError
on an unknown name. -/
def remove_peer (st : GlobalState) (name : String) : Option GlobalState :=
  if (peerNames st).contains name then
    some { st with peers := st.peers.filter (fun np => np.1 ≠ name) }
  else none

/-! ## Config rendering (src/wg_backend/wireguard.py) -/

/-- Python truthiness of an Optional[str]. -/
def optStrTruthy : Option String → Bool
  | none => false
  | some s => s ≠ ""

/-- Python truthiness of an Optional[List[str]]. -/
def optListTruthy : Option (List String) → Bool
  | none => false
  | some l => l ≠ []

/-- The peer block lines of the server config for one peer. -/
def serverPeerBlock (p : Peer) : List String :=
  ["[Peer]", "PublicKey = " ++ p.public_key] ++
    (if optStrTruthy p.preshared_key then
      ["PresharedKey = " ++ p.preshared_key.getD ""] else []) ++
    ["AllowedIPs = " ++ p.ip, ""]

/-- The full list of lines built by render_server_conf. -/
def serverLines (st : GlobalState) : List String :=
  ["[Interface]",
   "Address = " ++ st.server.address,
   "ListenPort = " ++ toString st.server.listen_port,
   "PrivateKey = " ++ st.server.private_key,
   ""] ++ (st.peers.map (fun np => serverPeerBlock np.2)).flatten

/-- render_server_conf: newline-joined lines, stripped, with a final
newline. -/
def render_server_conf (st : GlobalState) : String :=
  pyStrip (joinNL (serverLines st)) ++ "\n"

/-- The list of lines built by render_client_conf for a found peer. -/
def clientLines (st : GlobalState) (p : Peer) : List String :=
  ["[Interface]", "Address = " ++ p.ip, "PrivateKey = " ++ p.private_key] ++
    (if optListTruthy st.server.dns then
      ["DNS = " ++ joinComma (st.server.dns.getD [])] else []) ++
    ["", "[Peer]", "PublicKey = " ++ st.server.public_key] ++
    (if optStrTruthy p.preshared_key then
      ["PresharedKey = " ++ p.preshared_key.getD ""] else []) ++
    ["AllowedIPs = " ++ joinComma p.allowed_ips] ++
    (if optStrTruthy st.server.endpoint then
      ["Endpoint = " ++ st.server.endpoint.getD ""] else []) ++
    ["PersistentKeepalive = 25"]

/-- Association-list lookup, Python dict access semantics. -/
def lookupPeer (st : GlobalState) (name : String) : Option Peer :=
  (st.peers.find? (fun np => np.1 = name)).map Prod.snd

/-- render_client_conf: KeyError (the NotFoundError of the spec taxonomy)
on an unknown peer name, otherwise the rendered text. -/
def render_client_conf (st : GlobalState) (peer_name : String) :
    Except String String :=
  match lookupPeer st peer_name with
  | none => .error ("Unknown peer '" ++ peer_name ++ "'")
  | some p => .ok (pyStrip (joinNL (clientLines st p)) ++ "\n")

/-! ## State validation (src/wg_backend/wireguard.py, validate_state) -/

/-- Peer names must avoid path separators and parent-directory tokens. -/
def hasBadToken (name : String) : Bool :=
  pyContains "/" name || pyContains "\\" name || pyContains ".." name

/-- The server-field problems, in source order. -/
def serverErrors (s : ServerState) : List String :=
  (if pyBlank s.interface then ["server.interface manquant/vide"] else []) ++
    (if pyBlank s.private_key then ["server.private_key manquante/vide"] else []) ++
    (if pyBlank s.address then ["server.address manquante/vide"] else []) ++
    (if 1 ≤ s.listen_port ∧ s.listen_port ≤ 65535 then []
     else ["server.listen_port invalide (doit être int 1..65535)"])

/-- Validate one peer entry given the already-seen normalized IP strings.
Returns the problems for this peer and the updated seen set.  On an
unparsable IP the remaining checks are skipped (the continue in the
source). -/
def validatePeer (cidr : String) (net : Option (Nat × Nat)) (name : String)
    (p : Peer) (seen : List String) : List String × List String :=
  let nameErrs :=
    (if name = "" then ["peer avec nom vide"] else []) ++
      (if hasBadToken name then
        ["peer name interdit: " ++ pyRepr name ++ " (chemins interdits)"] else [])
  match parseInterfaceAddr p.ip with
  | none => (nameErrs ++ ["peer " ++ name ++ ": ip invalide: " ++ p.ip], seen)
  | some (a, pl) =>
    let ipStr := interfaceToString a pl
    let dupErrs :=
      if seen.contains ipStr then
        ["peer " ++ name ++ ": IP en doublon: " ++ p.ip] else []
    let netErrs :=
      match net with
      | some (base, npl) =>
        if inNet a base npl then []
        else ["peer " ++ name ++ ": IP hors network_cidr (" ++ p.ip ++ " ∉ " ++
          cidr ++ ")"]
      | none => []
    let keyErrs :=
      (if pyBlank p.public_key then
        ["peer " ++ name ++ ": public_key manquante/vide"] else []) ++
        (if pyBlank p.private_key then
          ["peer " ++ name ++ ": private_key manquante/vide"] else []) ++
        (if p.allowed_ips = [] then
          ["peer " ++ name ++ ": allowed_ips vide"] else [])
    (nameErrs ++ dupErrs ++ netErrs ++ keyErrs, ipStr :: seen)

/-- Fold validatePeer over the peers dict in insertion order. -/
def validatePeers (cidr : String) (net : Option (Nat × Nat)) :
    List String → List (String × Peer) → List String
  | _, [] => []
  | seen, (name, p) :: rest =>
    let r := validatePeer cidr net name p seen
    r.1 ++ validatePeers cidr net r.2 rest

/-- The seen-IP set after folding validatePeer over a peer list. -/
def seenAfter (cidr : String) (net : Option (Nat × Nat)) :
    List String → List (String × Peer) → List String
  | seen, [] => seen
  | seen, (name, p) :: rest =>
    seenAfter cidr net (validatePeer cidr net name p seen).2 rest

/-- validate_state: collect all problems; an empty list means valid. -/
def validate_state (st : GlobalState) : List String :=
  let s := st.server
  let net := parseNetworkLoose st.network_cidr
  serverErrors s ++
    (if net.isSome then [] else ["network_cidr invalide: " ++ st.network_cidr]) ++
    (if (parseInterfaceAddr s.address).isSome then []
     else ["server.address invalide: " ++ s.address]) ++
    validatePeers st.network_cidr net [] st.peers

/-! ## Apply pipeline (src/wg_backend/wireguard.py) -/

/-- Environment of one apply invocation: privilege, binary lookups, the
installed-config file, injected filesystem failures, and interface state. -/
structure Env where
  isRoot : Bool
  hasWg : Bool
  hasWgQuick : Bool
  hasIp : Bool
  confExists : Bool
  copyFails : Bool
  chmodBakFails : Bool
  linkUp : Bool
  downFails : Bool
  upFails : Bool
deriving DecidableEq

/-- System mutations performed by the pipeline, in order. -/
inductive Action where
  | mkdirEtc
  | backupWrite (dst : String)
  | chmodBak (dst : String)
  | writeTmp (iface content : String)
  | chmodTmp (iface : String)
  | renameTmp (iface : String)
  | wgDown (iface : String)
  | wgUp (iface : String)
deriving DecidableEq

/-- Errors surfaced by the pipeline. -/
inductive ApplyErr where
  | validation (msg : String)
  | permission (msg : String)
  | binaryMissing (prog : String)
  | osError
  | cmdError (cmd : String)
deriving DecidableEq

/-- backup_etc_conf: copy the installed config to a timestamped sibling.
The copy itself may raise (copyFails, propagated); only the chmod of the
backup is wrapped in try/except. -/
def backup_etc_conf (env : Env) (iface ts : String) :
    List Action × Except ApplyErr (Option String) :=
  if !env.confExists then ([], .ok none)
  else if env.copyFails then ([], .error .osError)
  else
    let dst := iface ++ ".conf.bak-" ++ ts
    ([Action.backupWrite dst] ++
      (if env.chmodBakFails then [] else [Action.chmodBak dst]), .ok (some dst))

/-- install_server_conf_to_etc: root check, mkdir, then the atomic
write-chmod-rename sequence. -/
def install_server_conf_to_etc (env : Env) (st : GlobalState) :
    List Action × Except ApplyErr String :=
  if !env.isRoot then
    ([], .error (.permission "Writing to /etc/wireguard requires root (run with sudo)."))
  else
    let iface := st.server.interface
    ([Action.mkdirEtc, Action.writeTmp iface (render_server_conf st),
      Action.chmodTmp iface, Action.renameTmp iface],
     .ok ("/etc/wireguard/" ++ iface ++ ".conf"))

/-- apply_safe: validate, require root, check binaries, mkdir, backup,
atomic install, optional interface bounce.  Returns the performed actions
and the outcome. -/
def apply_safe (env : Env) (ts : String) (st : GlobalState) (restart : Bool) :
    List Action × Except ApplyErr String :=
  if validate_state st ≠ [] then
    ([], .error (.validation ("State invalide, apply refusé:\n- " ++
      String.intercalate "\n- " (validate_state st))))
  else if !env.isRoot then
    ([], .error (.permission "apply requires root (run with sudo)."))
  else if !env.hasWg then ([], .error (.binaryMissing "wg"))
  else if !env.hasWgQuick then ([], .error (.binaryMissing "wg-quick"))
  else if !env.hasIp then ([], .error (.binaryMissing "ip"))
  else
    let iface := st.server.interface
    let acc : List Action := [Action.mkdirEtc]
    match backup_etc_conf env iface ts with
    | (bacts, .error e) => (acc ++ bacts, .error e)
    | (bacts, .ok _) =>
      match install_server_conf_to_etc env st with
      | (iacts, .error e) => (acc ++ bacts ++ iacts, .error e)
      | (iacts, .ok path) =>
        let acc2 := acc ++ bacts ++ iacts
        if restart then
          if env.linkUp then
            if env.downFails then (acc2, .error (.cmdError "wg-quick down"))
            else if env.upFails then
              (acc2 ++ [Action.wgDown iface], .error (.cmdError "wg-quick up"))
            else (acc2 ++ [Action.wgDown iface, Action.wgUp iface], .ok path)
          else
            if env.upFails then (acc2, .error (.cmdError "wg-quick up"))
            else (acc2 ++ [Action.wgUp iface], .ok path)
        else (acc2, .ok path)

/-! ## init_server (src/wg_backend/init_server.py) -/

/-- init_server: keypair from the external generator passed as priv/pub;
the save_state side effect is not part of the returned value.  Note the
server address is the constant "10.8.0.1/24" whatever network_cidr is. -/
def init_server (priv pub iface network_cidr : String) (listen_port : Int)
    (endpoint : Option String) (dns : Option (List String)) : GlobalState :=
  { network_cidr := network_cidr
    server :=
      { interface := iface
        listen_port := listen_port
        private_key := priv
        public_key := pub
        address := "10.8.0.1/24"
        endpoint := endpoint
        dns := dns }
    peers := [] }

/-! ## State persistence (src/wg_backend/state.py) -/

/-- JSON-shaped values produced by state_to_dict and consumed by
dict_to_state. -/
inductive JVal where
  | s (v : String)
  | i (v : Int)
  | null
  | arr (v : List JVal)
  | obj (v : List (String × JVal))

/-- Encode an optional string (None becomes null). -/
def optStrJ : Option String → JVal
  | none => .null
  | some v => .s v

/-- Encode an optional string list (None becomes null). -/
def optStrListJ : Option (List String) → JVal
  | none => .null
  | some l => .arr (l.map JVal.s)

/-- The dict built for one peer by state_to_dict. -/
def peer_to_dict (p : Peer) : JVal :=
  .obj [("name", .s p.name), ("private_key", .s p.private_key),
    ("public_key", .s p.public_key), ("ip", .s p.ip),
    ("allowed_ips", .arr (p.allowed_ips.map JVal.s)),
    ("preshared_key", optStrJ p.preshared_key)]

/-- state_to_dict. -/
def state_to_dict (st : GlobalState) : JVal :=
  .obj [("network_cidr", .s st.network_cidr),
    ("server", .obj [("interface", .s st.server.interface),
      ("listen_port", .i st.server.listen_port),
      ("private_key", .s st.server.private_key),
      ("public_key", .s st.server.public_key),
      ("address", .s st.server.address),
      ("endpoint", optStrJ st.server.endpoint),
      ("dns", optStrListJ st.server.dns)]),
    ("peers", .obj (st.peers.map (fun np => (np.1, peer_to_dict np.2))))]

/-- Dict key access: some value on an object holding the key, none
otherwise (none models both KeyError and .get default). -/
def jget (j : JVal) (k : String) : Option JVal :=
  match j with
  | .obj kvs => (kvs.find? (fun kv => kv.1 = k)).map Prod.snd
  | _ => none

/-- Read a JSON string.  The Python source performs no type check; on
every image of state_to_dict the stored value has this shape. -/
def asStr : JVal → Option String
  | .s v => some v
  | _ => none

/-- Read a JSON int. -/
def asInt : JVal → Option Int
  | .i v => some v
  | _ => none

/-- Read an optional string obtained through dict.get: a missing key or
null becomes None. -/
def asOptStr : Option JVal → Option (Option String)
  | none => some none
  | some .null => some none
  | some (.s v) => some (some v)
  | some _ => none

/-- Traverse a list with a fallible reader, failing on the first failure
(the behavior of a Python comprehension whose body raises). -/
def optTraverse {α β : Type} (f : α → Option β) : List α → Option (List β)
  | [] => some []
  | a :: l =>
    match f a, optTraverse f l with
    | some b, some bs => some (b :: bs)
    | _, _ => none

/-- Read a list of strings. -/
def asStrList : JVal → Option (List String)
  | .arr l => optTraverse asStr l
  | _ => none

/-- Read an optional list of strings obtained through dict.get. -/
def asOptStrList : Option JVal → Option (Option (List String))
  | none => some none
  | some .null => some none
  | some (.arr l) => (optTraverse asStr l).map some
  | some _ => none

/-- Rebuild one Peer from its dict. -/
def peer_from_dict (j : JVal) : Option Peer := do
  let name ← (jget j "name").bind asStr
  let priv ← (jget j "private_key").bind asStr
  let pub ← (jget j "public_key").bind asStr
  let ip ← (jget j "ip").bind asStr
  let ai ← (jget j "allowed_ips").bind asStrList
  let psk ← asOptStr (jget j "preshared_key")
  pure ⟨name, priv, pub, ip, ai, psk⟩

/-- dict_to_state: rebuild the GlobalState; data.get("peers", {}) makes a
missing peers key an empty dict. -/
def dict_to_state (j : JVal) : Option GlobalState := do
  let sj ← jget j "server"
  let iface ← (jget sj "interface").bind asStr
  let lp ← (jget sj "listen_port").bind asInt
  let priv ← (jget sj "private_key").bind asStr
  let pub ← (jget sj "public_key").bind asStr
  let addr ← (jget sj "address").bind asStr
  let ep ← asOptStr (jget sj "endpoint")
  let dns ← asOptStrList (jget sj "dns")
  let cidr ← (jget j "network_cidr").bind asStr
  let peers ←
    match jget j "peers" with
    | none => some []
    | some (.obj kvs) =>
      optTraverse (fun kv => (peer_from_dict kv.2).map (fun p => (kv.1, p))) kvs
    | some _ => none
  pure ⟨cidr, ⟨iface, lp, priv, pub, addr, ep, dns⟩, peers⟩

/-! ## Firewall manager (src/wg_backend/firewall.py) -/

/-- One iptables rule, as its rule-specification tokens. -/
abbrev Rule := List String

/-- The iptables state the firewall manager manipulates: the built-in
INPUT and FORWARD chains, the user chains of the filter table in creation
order, and the NAT table when the host has one. -/
structure IptState where
  inputRules : List Rule
  forwardRules : List Rule
  filterChains : List (String × List Rule)
  natAvail : Bool
  postroutingRules : List Rule
  natChains : List (String × List Rule)
deriving DecidableEq

/-- Environment of a firewall invocation. -/
structure FwEnv where
  isRoot : Bool
  hasIptables : Bool
  hasIp : Bool
  conntrackOk : Bool
  routeOutput : String
deriving DecidableEq

/-- dataclass FirewallResult. -/
structure FirewallResult where
  wan_iface : String
  backend : String
  input_udp : Bool
  forward_wg_to_wan : Bool
  forward_established : Bool
  nat_masquerade : Bool
  notes : String
deriving DecidableEq

/-- Errors surfaced by the firewall manager. -/
inductive FwErr where
  | permission
  | binaryMissing (prog : String)
  | detection (msg : String)
deriving DecidableEq

/-- The three private chain names. -/
def CH_IN : String := "VPNWG_IN"

/-- FORWARD-hook chain name. -/
def CH_FWD : String := "VPNWG_FWD"

/-- NAT-hook chain name. -/
def CH_NAT : String := "VPNWG_NAT"

/-- detect_wan_iface: parse the interface after the dev token of the first
non-blank line of ip route show default. -/
def afterDev : List String → Except FwErr String
  | [] => .error (.detection "Cannot parse default route line")
  | "dev" :: rest =>
    match rest with
    | x :: _ => .ok x
    | [] => .error (.detection "Cannot parse WAN iface")
  | _ :: rest => afterDev rest

/-- detect_wan_iface on the captured stdout of ip route show default. -/
def detect_wan_iface (env : FwEnv) : Except FwErr String :=
  let out := pyStrip env.routeOutput
  match (splitChar '\n' out.data).find? (fun l => !(pyBlank (⟨l⟩ : String))) with
  | none => .error (.detection "Cannot detect default route")
  | some l => afterDev (pySplitWs (⟨l⟩ : String))

/-- Names of the chains of an association-list table. -/
def chainNames (t : List (String × List Rule)) : List String :=
  t.map Prod.fst

/-- Apply a function to the rules of every chain with the given name. -/
def updateChain (t : List (String × List Rule)) (c : String)
    (f : List Rule → List Rule) : List (String × List Rule) :=
  t.map (fun e => if e.1 = c then (e.1, f e.2) else e)

/-- iptables -N when the chain is absent (the _ensure_chain helper). -/
def ensureChainT (t : List (String × List Rule)) (c : String) :
    List (String × List Rule) :=
  if (chainNames t).contains c then t else t ++ [(c, [])]

/-- iptables -F on a user chain (the _flush_chain helper; a missing chain
is a swallowed error, hence a no-op). -/
def flushChainT (t : List (String × List Rule)) (c : String) :
    List (String × List Rule) :=
  updateChain t c (fun _ => [])

/-- iptables -A on a user chain. -/
def appendRuleT (t : List (String × List Rule)) (c : String) (r : Rule) :
    List (String × List Rule) :=
  updateChain t c (fun rs => rs ++ [r])

/-- The needle string _ensure_jump_first searches for in iptables -S
output. -/
def needleFor (parent chain : String) : String :=
  "-A " ++ parent ++ " -j " ++ chain

/-- Rendering of iptables -S for a built-in parent chain: the policy line
followed by one -A line per rule. -/
def renderParent (parent : String) (rules : List Rule) : String :=
  joinNL (("-P " ++ parent ++ " ACCEPT") ::
    rules.map (fun r => "-A " ++ parent ++ " " ++ joinSp r))

/-- The _ensure_jump_first logic on the rules of a built-in chain: insert
the jump at position 1 unless the -S listing already holds the needle as a
substring. -/
def ensureJumpRules (parent chain : String) (rules : List Rule) : List Rule :=
  if pyContains (needleFor parent chain) (renderParent parent rules) then rules
  else ["-j", chain] :: rules

/-- The INPUT-hook rule populated into CH_IN. -/
def udpRule (listen_port : Int) : Rule :=
  ["-p", "udp", "--dport", toString listen_port, "-j", "ACCEPT"]

/-- The conntrack rule populated into CH_FWD. -/
def conntrackRule : Rule :=
  ["-m", "conntrack", "--ctstate", "RELATED,ESTABLISHED", "-j", "ACCEPT"]

/-- The wg-to-WAN forward rule populated into CH_FWD. -/
def wgWanRule (wg_iface wan : String) : Rule :=
  ["-i", wg_iface, "-o", wan, "-j", "ACCEPT"]

/-- The masquerade rule populated into CH_NAT. -/
def masqRule (wan : String) : Rule :=
  ["-o", wan, "-j", "MASQUERADE"]

/-- The filter-table chain manipulation of enable_firewall: ensure the two
private chains, flush them, repopulate them (the conntrack append is
wrapped in try/except and may be skipped). -/
def enableFilterChains (conntrackOk : Bool) (wg_iface wan : String)
    (listen_port : Int) (fc : List (String × List Rule)) :
    List (String × List Rule) :=
  let fc := ensureChainT (ensureChainT fc CH_IN) CH_FWD
  let fc := flushChainT (flushChainT fc CH_IN) CH_FWD
  let fc := appendRuleT fc CH_IN (udpRule listen_port)
  let fc := if conntrackOk then appendRuleT fc CH_FWD conntrackRule else fc
  appendRuleT fc CH_FWD (wgWanRule wg_iface wan)

/-- The filter-table half of enable_firewall, after argument handling. -/
def enableFilter (env : FwEnv) (wg_iface wan : String) (listen_port : Int)
    (s : IptState) : IptState :=
  { s with
    filterChains :=
      enableFilterChains env.conntrackOk wg_iface wan listen_port s.filterChains
    inputRules := ensureJumpRules "INPUT" CH_IN s.inputRules
    forwardRules := ensureJumpRules "FORWARD" CH_FWD s.forwardRules }

/-- The NAT-table chain manipulation of enable_firewall. -/
def enableNatChains (wan : String) (nc : List (String × List Rule)) :
    List (String × List Rule) :=
  appendRuleT (flushChainT (ensureChainT nc CH_NAT) CH_NAT) CH_NAT (masqRule wan)

/-- The NAT-table half of enable_firewall (runs only when the NAT table is
available). -/
def enableNat (wan : String) (s : IptState) : IptState :=
  { s with
    natChains := enableNatChains wan s.natChains
    postroutingRules := ensureJumpRules "POSTROUTING" CH_NAT s.postroutingRules }

/-- The WAN interface argument handling of enable_firewall: an explicit
argument wins, otherwise detect from the default route. -/
def wanResolve (wan_iface : Option String) (env : FwEnv) :
    Except FwErr String :=
  match wan_iface with
  | some w => .ok w
  | none => detect_wan_iface env

/-- enable_firewall: privilege and binary checks, WAN detection when no
wan_iface argument is given, then the flush-and-repopulate of the three
private chains and the jump insertion. -/
def enable_firewall (env : FwEnv) (wg_iface : String) (listen_port : Int)
    (wan_iface : Option String) (s : IptState) :
    Except FwErr (IptState × FirewallResult) :=
  if !env.isRoot then .error .permission
  else if !env.hasIptables then .error (.binaryMissing "iptables")
  else if !env.hasIp then .error (.binaryMissing "ip")
  else
    match wanResolve wan_iface env with
    | .error e => .error e
    | .ok wan =>
      let s1 := enableFilter env wg_iface wan listen_port s
      let s2 := if s1.natAvail then enableNat wan s1 else s1
      .ok (s2,
        { wan_iface := wan
          backend := "iptables"
          input_udp := true
          forward_wg_to_wan := true
          forward_established := env.conntrackOk
          nat_masquerade := s1.natAvail
          notes :=
            (if env.conntrackOk then ""
             else "conntrack unavailable; skipped ESTABLISHED,RELATED rule. ") ++
              (if s1.natAvail then ""
               else "nat table unavailable (missing iptable_nat/nf_nat); no internet for VPN clients. ") })

/-- The -j target of a rule: the token after -j. -/
def targetOf (r : Rule) : Option String :=
  match r.dropWhile (fun tok => tok ≠ "-j") with
  | _ :: t :: _ => some t
  | _ => none

/-- Number of rules of a chain that jump into the given chain. -/
def countTarget (rules : List Rule) (c : String) : Nat :=
  rules.countP (fun r => targetOf r = some c)

/-! ## Further specification vocabulary -/

/-- h is the numerically lowest member of hosts that is not used. -/
def lowestFree (hosts used : List Nat) (h : Nat) : Prop :=
  h ∈ hosts ∧ h ∉ used ∧ ∀ y ∈ hosts, y ∉ used → h ≤ y

instance (hosts used : List Nat) (h : Nat) : Decidable (lowestFree hosts used h) := by
  unfold lowestFree; infer_instance

/-- The first character of a string, used to tell rendered config lines
apart. -/
def firstChar (s : String) : Option Char :=
  s.data.head?

/-! ## Concrete fixtures -/

/-- A well-formed server on 10.8.0.1/24. -/
def exServer : ServerState :=
  ⟨"wg0", 51820, "SPRIV", "SPUB", "10.8.0.1/24", none, none⟩

/-- A well-formed peer with the given name and ip. -/
def exPeer (n ip : String) : Peer :=
  ⟨n, "ppriv", "ppub", ip, ["10.8.0.0/24"], none⟩

/-- The spec's IPAM scenario: peers at .2, .3 and .5 of a /24. -/
def exIpam1 : GlobalState :=
  ⟨"10.8.0.0/24", exServer,
    [("phone", exPeer "phone" "10.8.0.2/32"),
     ("laptop", exPeer "laptop" "10.8.0.3/32"),
     ("tablet", exPeer "tablet" "10.8.0.5/32")]⟩

/-- The spec's IPAM scenario after .3 is freed. -/
def exIpam2 : GlobalState :=
  ⟨"10.8.0.0/24", exServer,
    [("phone", exPeer "phone" "10.8.0.2/32"),
     ("tablet", exPeer "tablet" "10.8.0.5/32")]⟩

/-- A state whose network parses but whose server address does not. -/
def exBadAddr : GlobalState :=
  ⟨"10.8.0.0/24", ⟨"wg0", 51820, "SPRIV", "SPUB", "not-an-ip", none, none⟩, []⟩

/-- A state that is fully well-formed except for an empty server public
key. -/
def exNoPub : GlobalState :=
  ⟨"10.8.0.0/24", ⟨"wg0", 51820, "SPRIV", "", "10.8.0.1/24", none, none⟩, []⟩

/-- A state with empty interface, private key and address and a bad
port. -/
def exAllEmpty : GlobalState :=
  ⟨"10.8.0.0/24", ⟨"", 0, "", "SPUB", "", none, none⟩, []⟩

/-- A state with a duplicate peer IP and an out-of-range listen port. -/
def exDupPort : GlobalState :=
  ⟨"10.8.0.0/24", ⟨"wg0", 0, "SPRIV", "SPUB", "10.8.0.1/24", none, none⟩,
    [("a", exPeer "a" "10.8.0.2/32"), ("b", exPeer "b" "10.8.0.2/32")]⟩

/-- A small valid state. -/
def exValid : GlobalState :=
  ⟨"10.8.0.0/24", exServer, [("phone", exPeer "phone" "10.8.0.2/32")]⟩

/-- A valid state exercising every optional field. -/
def exRich : GlobalState :=
  ⟨"10.8.0.0/24",
    ⟨"wg0", 51820, "SPRIV", "SPUB", "10.8.0.1/24",
      some "vpn.example.org:51820", some ["1.1.1.1", "9.9.9.9"]⟩,
    [("phone",
      ⟨"phone", "ppriv", "ppub", "10.8.0.2/32",
        ["10.8.0.0/24", "0.0.0.0/0"], some "PSK"⟩)]⟩

/-- A /30 network whose two host addresses are both taken. -/
def exFull30 : GlobalState :=
  ⟨"10.8.0.0/30", ⟨"wg0", 51820, "SPRIV", "SPUB", "10.8.0.1/30", none, none⟩,
    [("a", exPeer "a" "10.8.0.2/32")]⟩

/-- A fully healthy apply environment with no installed config. -/
def envOk : Env :=
  ⟨true, true, true, true, false, false, false, false, false, false⟩

/-- An environment in which the backup copy raises. -/
def envCopyFail : Env :=
  ⟨true, true, true, true, true, true, false, false, false, false⟩

/-- An environment in which only the backup chmod raises. -/
def envChmodFail : Env :=
  ⟨true, true, true, true, true, false, true, false, false, false⟩

/-- A healthy firewall environment with a default route on eth0. -/
def fwEnvOk : FwEnv :=
  ⟨true, true, true, true,
    "default via 192.0.2.1 dev eth0 proto dhcp src 192.0.2.7 metric 100\n"⟩

/-- An empty ruleset with a NAT table. -/
def ipt0 : IptState :=
  ⟨[], [], [], true, [], []⟩

/-- A ruleset in which INPUT already holds two jumps into CH_IN. -/
def iptDupJump : IptState :=
  ⟨[["-j", "VPNWG_IN"], ["-j", "VPNWG_IN"]], [], [], false, [], []⟩

/-- The ruleset produced by enable_firewall from ipt0 (wg0, 51820,
eth0). -/
def iptEnabled : IptState :=
  ⟨[["-j", "VPNWG_IN"]], [["-j", "VPNWG_FWD"]],
    [("VPNWG_IN", [["-p", "udp", "--dport", "51820", "-j", "ACCEPT"]]),
     ("VPNWG_FWD",
      [["-m", "conntrack", "--ctstate", "RELATED,ESTABLISHED", "-j", "ACCEPT"],
       ["-i", "wg0", "-o", "eth0", "-j", "ACCEPT"]])],
    true,
    [["-j", "VPNWG_NAT"]],
    [("VPNWG_NAT", [["-o", "eth0", "-j", "MASQUERADE"]])]⟩

/-- The FirewallResult produced by enable_firewall from ipt0. -/
def fwResOk : FirewallResult :=
  ⟨"eth0", "iptables", true, true, true, true, ""⟩

/-- The ruleset produced by enable_firewall from iptDupJump: the two
pre-existing jumps survive. -/
def iptDupEnabled : IptState :=
  ⟨[["-j", "VPNWG_IN"], ["-j", "VPNWG_IN"]], [["-j", "VPNWG_FWD"]],
    [("VPNWG_IN", [["-p", "udp", "--dport", "51820", "-j", "ACCEPT"]]),
     ("VPNWG_FWD",
      [["-m", "conntrack", "--ctstate", "RELATED,ESTABLISHED", "-j", "ACCEPT"],
       ["-i", "wg0", "-o", "eth0", "-j", "ACCEPT"]])],
    false, [], []⟩

/-- The FirewallResult produced by enable_firewall from iptDupJump. -/
def fwResDup : FirewallResult :=
  ⟨"eth0", "iptables", true, true, true, false,
    "nat table unavailable (missing iptable_nat/nf_nat); no internet for VPN clients. "⟩

/-! ## Helper lemmas -/

theorem find?_eq_of_lowestFree {used : List Nat} :
    ∀ {hosts : List Nat}, hosts.Pairwise (· ≤ ·) → ∀ {h : Nat},
      lowestFree hosts used h →
      hosts.find? (fun x => !(used.contains x)) = some h := by
  intro hosts
  induction hosts with
  | nil => intro _ h hlf; cases hlf.1
  | cons a t ih =>
    intro hs h hlf
    obtain ⟨hmem, hfree, hmin⟩ := hlf
    by_cases ha : a ∈ used
    · rw [List.find?_cons_of_neg (p := fun x => !(used.contains x)) t (by simp [ha])]
      have hmt : h ∈ t := by
        rcases List.mem_cons.mp hmem with rfl | hmt
        · exact absurd ha hfree
        · exact hmt
      exact ih (List.pairwise_cons.mp hs).2
        ⟨hmt, hfree, fun y hy hyf => hmin y (List.mem_cons_of_mem a hy) hyf⟩
    · rw [List.find?_cons_of_pos (p := fun x => !(used.contains x)) t (by simp [ha])]
      have h1 : h ≤ a := hmin a (List.mem_cons_self a t) ha
      have h2 : a ≤ h := by
        rcases List.mem_cons.mp hmem with rfl | hmt
        · exact Nat.le_refl _
        · exact (List.pairwise_cons.mp hs).1 h hmt
      exact congrArg some (Nat.le_antisymm h2 h1)

theorem hostsList_sorted (base pl : Nat) :
    (hostsList base pl).Pairwise (· ≤ ·) := by
  unfold hostsList
  split
  · simp
  · split
    · simp
    · refine List.Pairwise.map _ (fun a b hab => ?_)
        ((List.pairwise_lt_range _))
      omega

theorem mem_used_of_find?_none {hosts used : List Nat}
    (hf : hosts.find? (fun x => !(used.contains x)) = none) :
    ∀ y ∈ hosts, y ∈ used := by
  intro y hy
  have := List.find?_eq_none.mp hf y hy
  simpa using this

/-! ## Claim C1: allocate_ip returns the lowest free host as /32 -/

/-- C1 (amended).  Whenever network_cidr parses strictly as a network AND
the server address and every peer address parse as IPv4 addresses,
allocate_ip returns the numerically lowest host of the subnet outside the
used set (server + peers + network + broadcast) as a /32 CIDR, and raises
the exhaustion error exactly when every host of the subnet is used.  The
spec's two determinism instances hold: peers at .2/.3/.5 of a /24 give .4,
and after .3 is freed, .3. -/
theorem allocate_ip_lowest_free_spec :
    (∀ (st : GlobalState) (base pl sip : Nat) (pips : List Nat) (h : Nat),
      parseNetworkStrict st.network_cidr = some (base, pl) →
      parseIPv4 (beforeSlash st.server.address) = some sip →
      peersIps st.peers = some pips →
      lowestFree (hostsList base pl)
        (sip :: pips ++ [base, broadcastOf base pl]) h →
      allocate_ip st = .ok (ipToString h ++ "/32")) ∧
    (∀ (st : GlobalState) (base pl sip : Nat) (pips : List Nat),
      parseNetworkStrict st.network_cidr = some (base, pl) →
      parseIPv4 (beforeSlash st.server.address) = some sip →
      peersIps st.peers = some pips →
      (allocate_ip st = .exhausted ↔
        ∀ y ∈ hostsList base pl,
          y ∈ (sip :: pips ++ [base, broadcastOf base pl]))) ∧
    allocate_ip exIpam1 = .ok "10.8.0.4/32" ∧
    allocate_ip exIpam2 = .ok "10.8.0.3/32" := by
  refine ⟨?_, ?_, rfl, rfl⟩
  · intro st base pl sip pips h hnet hsip hpips hlf
    have hfind := find?_eq_of_lowestFree (hostsList_sorted base pl) hlf
    simp only [allocate_ip, get_used_ips, hnet, hsip, hpips, hfind]
  · intro st base pl sip pips hnet hsip hpips
    simp only [allocate_ip, get_used_ips, hnet, hsip, hpips]
    cases hfind : (hostsList base pl).find? (fun x =>
        !((sip :: pips ++ [base, broadcastOf base pl]).contains x)) with
    | none =>
      simp only [iff_true_intro (mem_used_of_find?_none hfind)]
    | some h0 =>
      have hmem := List.mem_of_find?_eq_some hfind
      have hp := List.find?_some hfind
      constructor
      · intro he; exact AllocResult.noConfusion he
      · intro hall
        exact absurd (hall h0 hmem) (by simpa using hp)

set_option maxRecDepth 100000 in
/-- C1 witness: the theorem applied to the .2/.3/.5 scenario gives
10.8.0.4/32. -/
theorem allocate_ip_lowest_free_spec_witness :
    allocate_ip exIpam1 = .ok (ipToString 168296452 ++ "/32") ∧
    ipToString 168296452 ++ "/32" = "10.8.0.4/32" :=
  ⟨allocate_ip_lowest_free_spec.1 exIpam1 168296448 24 168296449
      [168296450, 168296451, 168296453] 168296452 rfl rfl rfl (by decide),
   rfl⟩

/-- C1 counterexample to the claim as stated: exBadAddr has a strictly
parsing network_cidr, yet allocate_ip raises a ValueError (the server
address does not parse), so it neither returns a host address nor raises
the exhaustion error. -/
theorem allocate_ip_claim_counterexample :
    parseNetworkStrict exBadAddr.network_cidr = some (168296448, 24) ∧
    allocate_ip exBadAddr = .valueError ∧
    (∀ a, AllocResult.valueError ≠ AllocResult.ok a) ∧
    AllocResult.valueError ≠ AllocResult.exhausted :=
  ⟨rfl, rfl, fun _ h => AllocResult.noConfusion h,
   fun h => AllocResult.noConfusion h⟩

/-! ## Claim C3: apply_safe refuses invalid state without touching the
system -/

/-- C3.  Whenever validate_state returns problems, apply_safe raises a
ValidationError whose message concatenates all of them, and performs no
system action whatever the environment: the privilege flag, the backup
file and the interface state are never consulted and the action trace is
empty. -/
theorem apply_safe_rejects_invalid :
    ∀ (env : Env) (ts : String) (st : GlobalState) (restart : Bool),
      validate_state st ≠ [] →
      apply_safe env ts st restart =
        ([], .error (.validation ("State invalide, apply refusé:\n- " ++
          String.intercalate "\n- " (validate_state st)))) := by
  intro env ts st restart h
  unfold apply_safe
  rw [if_pos h]

/-- C3 witness at a concrete invalid state and a fully healthy root
environment. -/
theorem apply_safe_rejects_invalid_witness :
    apply_safe envOk "20260101-000000" exAllEmpty true =
      ([], .error (.validation ("State invalide, apply refusé:\n- " ++
        String.intercalate "\n- " (validate_state exAllEmpty)))) :=
  apply_safe_rejects_invalid envOk "20260101-000000" exAllEmpty true (by decide)

/-! ## Claim C6: which server fields validate_state actually checks -/

/-- C6 (amended).  validate_state reports a problem for an empty server
interface, private key or address and for a listen_port outside [1,
65535]; it does not inspect server.public_key, so the particular instance
that holds is: an empty server private_key forces a non-empty problem
list. -/
theorem validate_server_fields_spec :
    ∀ st : GlobalState,
      (st.server.interface = "" →
        "server.interface manquant/vide" ∈ validate_state st) ∧
      (st.server.private_key = "" →
        "server.private_key manquante/vide" ∈ validate_state st) ∧
      (st.server.address = "" →
        "server.address manquante/vide" ∈ validate_state st) ∧
      (¬(1 ≤ st.server.listen_port ∧ st.server.listen_port ≤ 65535) →
        "server.listen_port invalide (doit être int 1..65535)" ∈
          validate_state st) ∧
      (st.server.private_key = "" → validate_state st ≠ []) := by
  intro st
  refine ⟨fun h => ?_, fun h => ?_, fun h => ?_, fun h => ?_, fun h => ?_⟩
  · simp [validate_state, serverErrors, h, pyBlank]
  · simp [validate_state, serverErrors, h, pyBlank]
  · simp [validate_state, serverErrors, h, pyBlank]
  · simp [validate_state, serverErrors, if_neg h]
  · refine List.ne_nil_of_mem (a := "server.private_key manquante/vide") ?_
    simp [validate_state, serverErrors, h, pyBlank]

/-- C6 witness: at the state with empty interface, private key and
address and port 0, every reported problem is present and the list is
non-empty. -/
theorem validate_server_fields_spec_witness :
    "server.interface manquant/vide" ∈ validate_state exAllEmpty ∧
    "server.private_key manquante/vide" ∈ validate_state exAllEmpty ∧
    "server.address manquante/vide" ∈ validate_state exAllEmpty ∧
    "server.listen_port invalide (doit être int 1..65535)" ∈
      validate_state exAllEmpty ∧
    validate_state exAllEmpty ≠ [] :=
  ⟨(validate_server_fields_spec exAllEmpty).1 rfl,
   (validate_server_fields_spec exAllEmpty).2.1 rfl,
   (validate_server_fields_spec exAllEmpty).2.2.1 rfl,
   (validate_server_fields_spec exAllEmpty).2.2.2.1 (by decide),
   (validate_server_fields_spec exAllEmpty).2.2.2.2 rfl⟩

/-- C6 counterexample to the claim as stated: a state whose only flaw is
an empty server public key passes validation with an empty problem
list — validate_state never checks server.public_key. -/
theorem validate_ignores_public_key_counterexample :
    exNoPub.server.public_key = "" ∧ validate_state exNoPub = [] :=
  ⟨rfl, rfl⟩

/-! ## Claim C9: init_server hard-codes the server address -/

/-- C9 (amended).  init_server sets the server address to the constant
"10.8.0.1/24" whatever network_cidr is given; but contrary to the claim,
the state it produces PASSES validation whenever the basic server fields
are healthy and network_cidr parses, because validate_state checks
containment in network_cidr only for peers, never for the server
address. -/
theorem init_server_constant_address_spec :
    ∀ (priv pub iface cidr : String) (lp : Int) (ep : Option String)
      (dns : Option (List String)),
      (init_server priv pub iface cidr lp ep dns).server.address =
        "10.8.0.1/24" ∧
      (pyBlank iface = false → pyBlank priv = false →
        (1 ≤ lp ∧ lp ≤ 65535) → (parseNetworkLoose cidr).isSome →
        validate_state (init_server priv pub iface cidr lp ep dns) = []) := by
  intro priv pub iface cidr lp ep dns
  refine ⟨rfl, fun h1 h2 h3 h4 => ?_⟩
  have ha : pyBlank "10.8.0.1/24" = false := rfl
  have hb : (parseInterfaceAddr "10.8.0.1/24").isSome = true := rfl
  simp [validate_state, init_server, serverErrors, validatePeers, h1, h2, h3,
    h4, ha, hb]

/-- C9 witness: a concrete healthy initialization validates to the empty
list and carries the constant address. -/
theorem init_server_constant_address_spec_witness :
    (init_server "k" "K" "wg0" "10.8.0.0/24" 51820 none none).server.address =
      "10.8.0.1/24" ∧
    validate_state (init_server "k" "K" "wg0" "10.8.0.0/24" 51820 none none) =
      [] :=
  ⟨(init_server_constant_address_spec "k" "K" "wg0" "10.8.0.0/24" 51820
      none none).1,
   (init_server_constant_address_spec "k" "K" "wg0" "10.8.0.0/24" 51820
      none none).2 rfl rfl (by decide) rfl⟩

/-- C9 counterexample to the claim as stated: with network_cidr
192.168.5.0/24, which does not contain 10.8.0.1, the initialized state
still validates to the empty list. -/
theorem init_server_claim_counterexample :
    (init_server "p" "P" "wg0" "192.168.5.0/24" 51820 none none).server.address
      = "10.8.0.1/24" ∧
    validate_state (init_server "p" "P" "wg0" "192.168.5.0/24" 51820 none none)
      = [] ∧
    parseNetworkLoose "192.168.5.0/24" = some (3232236800, 24) ∧
    parseInterfaceAddr "10.8.0.1/24" = some (168296449, 24) ∧
    inNet 168296449 3232236800 24 = false :=
  ⟨rfl, rfl, rfl, rfl, rfl⟩

/-! ## Claim C2: validate_state collects all problems -/

theorem validatePeers_append (cidr : String) (net : Option (Nat × Nat)) :
    ∀ (xs : List (String × Peer)) (seen : List String)
      (ys : List (String × Peer)),
      validatePeers cidr net seen (xs ++ ys) =
        validatePeers cidr net seen xs ++
          validatePeers cidr net (seenAfter cidr net seen xs) ys := by
  intro xs
  induction xs with
  | nil => intro seen ys; simp [validatePeers, seenAfter]
  | cons hd tl ih =>
    intro seen ys
    obtain ⟨n, p⟩ := hd
    simp [validatePeers, seenAfter, ih, List.append_assoc]

theorem seenAfter_append (cidr : String) (net : Option (Nat × Nat)) :
    ∀ (xs : List (String × Peer)) (seen : List String)
      (ys : List (String × Peer)),
      seenAfter cidr net seen (xs ++ ys) =
        seenAfter cidr net (seenAfter cidr net seen xs) ys := by
  intro xs
  induction xs with
  | nil => intro seen ys; simp [seenAfter]
  | cons hd tl ih =>
    intro seen ys
    obtain ⟨n, p⟩ := hd
    simp [seenAfter, ih]

theorem mem_validatePeer_seen (cidr : String) (net : Option (Nat × Nat))
    (n : String) (p : Peer) (seen : List String) {s : String}
    (h : s ∈ seen) : s ∈ (validatePeer cidr net n p seen).2 := by
  unfold validatePeer
  cases hp : parseInterfaceAddr p.ip with
  | none => simpa using h
  | some apl =>
    obtain ⟨a, pl⟩ := apl
    simpa using Or.inr h

theorem mem_seenAfter (cidr : String) (net : Option (Nat × Nat)) :
    ∀ (xs : List (String × Peer)) (seen : List String) {s : String},
      s ∈ seen → s ∈ seenAfter cidr net seen xs := by
  intro xs
  induction xs with
  | nil => intro seen s h; simpa [seenAfter] using h
  | cons hd tl ih =>
    intro seen s h
    obtain ⟨n, p⟩ := hd
    exact ih _ (mem_validatePeer_seen cidr net n p seen h)

theorem dup_mem_validatePeer (cidr : String) (net : Option (Nat × Nat))
    (n : String) (p : Peer) (seen : List String) (a pl : Nat)
    (hp : parseInterfaceAddr p.ip = some (a, pl))
    (hs : interfaceToString a pl ∈ seen) :
    ("peer " ++ n ++ ": IP en doublon: " ++ p.ip) ∈
      (validatePeer cidr net n p seen).1 := by
  have hc : seen.contains (interfaceToString a pl) = true :=
    List.elem_iff.mpr hs
  simp [validatePeer, hp, hc]
  exact Or.inr (Or.inr (Or.inl hs))

/-- C2.  validate_state is a total function returning a list (the
non-throwing contract), and it collects problems instead of stopping at
the first: in every state holding both a duplicate peer IP (two peers
whose parsed interface addresses normalize to the same string) and an
out-of-range listen_port, the returned list contains the duplicate-IP
problem for the later peer and the listen_port problem. -/
theorem validate_state_collects_all_problems :
    ∀ (st : GlobalState) (l₁ l₂ l₃ : List (String × Peer)) (n₁ n₂ : String)
      (p₁ p₂ : Peer) (a₁ pl₁ a₂ pl₂ : Nat),
      st.peers = l₁ ++ (n₁, p₁) :: l₂ ++ (n₂, p₂) :: l₃ →
      parseInterfaceAddr p₁.ip = some (a₁, pl₁) →
      parseInterfaceAddr p₂.ip = some (a₂, pl₂) →
      interfaceToString a₁ pl₁ = interfaceToString a₂ pl₂ →
      ¬(1 ≤ st.server.listen_port ∧ st.server.listen_port ≤ 65535) →
      "server.listen_port invalide (doit être int 1..65535)" ∈
          validate_state st ∧
        ("peer " ++ n₂ ++ ": IP en doublon: " ++ p₂.ip) ∈ validate_state st := by
  intro st l₁ l₂ l₃ n₁ n₂ p₁ p₂ a₁ pl₁ a₂ pl₂ hpeers hp₁ hp₂ heq hport
  constructor
  · simp [validate_state, serverErrors, if_neg hport]
  · have hdup :
        ("peer " ++ n₂ ++ ": IP en doublon: " ++ p₂.ip) ∈
          validatePeers st.network_cidr (parseNetworkLoose st.network_cidr)
            [] st.peers := by
      rw [hpeers]
      set cidr := st.network_cidr
      set net := parseNetworkLoose st.network_cidr
      have h1 : interfaceToString a₁ pl₁ ∈
          (validatePeer cidr net n₁ p₁ (seenAfter cidr net [] l₁)).2 := by
        simp [validatePeer, hp₁]
      have h2 : interfaceToString a₂ pl₂ ∈
          seenAfter cidr net
            (validatePeer cidr net n₁ p₁ (seenAfter cidr net [] l₁)).2 l₂ := by
        rw [← heq]
        exact mem_seenAfter cidr net l₂ _ h1
      have h3 :
          ("peer " ++ n₂ ++ ": IP en doublon: " ++ p₂.ip) ∈
            validatePeers cidr net
              (seenAfter cidr net
                (validatePeer cidr net n₁ p₁ (seenAfter cidr net [] l₁)).2 l₂)
              ((n₂, p₂) :: l₃) := by
        rw [validatePeers]
        exact List.mem_append_left _
          (dup_mem_validatePeer cidr net n₂ p₂ _ a₂ pl₂ hp₂ h2)
      rw [validatePeers_append]
      refine List.mem_append_right _ ?_
      rw [seenAfter_append]
      simp only [seenAfter]
      exact h3
    simp only [validate_state]
    exact List.mem_append_right _ hdup

/-- C2 witness: a state with peers a and b both on 10.8.0.2/32 and
listen_port 0 reports both the duplicate IP of b and the bad port. -/
theorem validate_state_collects_all_problems_witness :
    "server.listen_port invalide (doit être int 1..65535)" ∈
        validate_state exDupPort ∧
      ("peer " ++ "b" ++ ": IP en doublon: " ++ (exPeer "b" "10.8.0.2/32").ip)
        ∈ validate_state exDupPort :=
  validate_state_collects_all_problems exDupPort []
    [] [] "a" "b" (exPeer "a" "10.8.0.2/32") (exPeer "b" "10.8.0.2/32")
    168296450 32 168296450 32 rfl rfl rfl rfl (by decide)

/-! ## Claim C4: state_to_dict / dict_to_state round trip -/

theorem mapM_asStr_map (l : List String) :
    optTraverse asStr (l.map JVal.s) = some l := by
  induction l with
  | nil => rfl
  | cons a t ih => simp [optTraverse, ih, asStr]

theorem peer_roundtrip (p : Peer) :
    peer_from_dict (peer_to_dict p) = some p := by
  obtain ⟨n, pr, pu, ip, ai, psk⟩ := p
  cases psk <;>
    simp [peer_from_dict, peer_to_dict, jget, asStr, asStrList, asOptStr,
      optStrJ, mapM_asStr_map]

theorem peers_roundtrip :
    ∀ l : List (String × Peer),
      optTraverse (fun kv => (peer_from_dict kv.2).map (fun p => (kv.1, p)))
          (l.map (fun np => (np.1, peer_to_dict np.2))) =
        some l := by
  intro l
  induction l with
  | nil => rfl
  | cons hd tl ih =>
    obtain ⟨n, p⟩ := hd
    simp [optTraverse, ih, peer_roundtrip]

/-- C4.  For every valid GlobalState (validate_state returns the empty
list), dict_to_state inverts state_to_dict field-for-field, including the
optional endpoint, dns and preshared_key fields when they are None, and
including every entry of the peers mapping.  (The proof does not even need
the validity hypothesis: the round trip holds for every GlobalState.) -/
theorem dict_to_state_state_to_dict (st : GlobalState)
    (h : validate_state st = []) :
    dict_to_state (state_to_dict st) = some st := by
  obtain ⟨cidr, ⟨iface, lp, pr, pu, addr, ep, dns⟩, peers⟩ := st
  cases ep <;> cases dns <;>
    simp [dict_to_state, state_to_dict, jget, asStr, asInt, asOptStr,
      asOptStrList, optStrJ, optStrListJ, mapM_asStr_map, peers_roundtrip]

/-- C4 witness: the round trip at a concrete valid state whose endpoint,
dns and preshared keys are all None. -/
theorem dict_to_state_state_to_dict_witness :
    dict_to_state (state_to_dict exValid) = some exValid :=
  dict_to_state_state_to_dict exValid rfl

/-! ## Claim C5: what a backup failure does to the apply pipeline -/

/-- C5 (amended).  The backup step is only partially best-effort: when the
copy of the previously installed config itself fails, the error
propagates and apply_safe aborts having performed only the mkdir — the
atomic install step is never reached.  Only a failure of the chmod on the
backup file is swallowed: with the copy succeeding, the pipeline always
reaches the atomic install (the rename action is in the trace) even when
that chmod fails. -/
theorem backup_failure_semantics :
    (∀ (env : Env) (ts : String) (st : GlobalState) (restart : Bool),
      validate_state st = [] → env.isRoot = true → env.hasWg = true →
      env.hasWgQuick = true → env.hasIp = true → env.confExists = true →
      env.copyFails = true →
      apply_safe env ts st restart = ([Action.mkdirEtc], .error .osError)) ∧
    (∀ (env : Env) (ts : String) (st : GlobalState) (restart : Bool),
      validate_state st = [] → env.isRoot = true → env.hasWg = true →
      env.hasWgQuick = true → env.hasIp = true → env.confExists = true →
      env.copyFails = false →
      Action.renameTmp st.server.interface ∈ (apply_safe env ts st restart).1) := by
  constructor
  · intro env ts st restart hv hroot hwg hwq hip hconf hcopy
    simp [apply_safe, backup_etc_conf, hv, hroot, hwg, hwq, hip, hconf, hcopy]
  · intro env ts st restart hv hroot hwg hwq hip hconf hcopy
    simp only [apply_safe, backup_etc_conf, install_server_conf_to_etc, hv,
      hroot, hwg, hwq, hip, hconf, hcopy, Bool.not_true, Bool.not_false,
      ite_true, ite_false, if_neg, Bool.false_eq_true, ne_eq,
      not_true_eq_false, not_false_eq_true]
    cases hch : env.chmodBakFails <;> cases restart <;> cases env.linkUp <;>
      cases env.downFails <;> cases env.upFails <;> simp

/-- C5 witness: with a healthy copy and a failing backup chmod, the
install rename is still performed. -/
theorem backup_failure_semantics_witness :
    Action.renameTmp exValid.server.interface ∈
      (apply_safe envChmodFail "20260101-000000" exValid true).1 :=
  backup_failure_semantics.2 envChmodFail "20260101-000000" exValid true
    rfl rfl rfl rfl rfl rfl rfl

/-- C5 counterexample to the claim as stated: with a failing backup copy
in an otherwise healthy root environment and a valid state, apply_safe
aborts with the copy error after only the mkdir; neither the temp-file
write nor the atomic rename of the install step happens. -/
theorem backup_failure_claim_counterexample :
    apply_safe envCopyFail "20260101-000000" exValid true =
      ([Action.mkdirEtc], .error .osError) ∧
    Action.renameTmp "wg0" ∉
      (apply_safe envCopyFail "20260101-000000" exValid true).1 ∧
    Action.writeTmp "wg0" (render_server_conf exValid) ∉
      (apply_safe envCopyFail "20260101-000000" exValid true).1 :=
  ⟨rfl, by decide, by decide⟩

/-! ## Claim C8: render_client_conf -/

theorem firstChar_append (pre x : String) (c : Char) (tl : List Char)
    (hp : pre.data = c :: tl) : firstChar (pre ++ x) = some c := by
  simp [firstChar, String.data_append, hp]

theorem endpoint_ne_of_firstChar {t : String} (x : String)
    (h : firstChar t ≠ some 'E') : ("Endpoint = " ++ x = t) ↔ False :=
  iff_false_intro (fun he => h (he ▸ firstChar_append _ _ 'E' _ rfl))

theorem endpoint_ne_interface (x : String) :
    ("Endpoint = " ++ x = "[Interface]") ↔ False :=
  endpoint_ne_of_firstChar x (by decide)

theorem endpoint_ne_address (x y : String) :
    ("Endpoint = " ++ x = "Address = " ++ y) ↔ False :=
  endpoint_ne_of_firstChar x (by rw [firstChar_append _ _ 'A' _ rfl]; decide)

theorem endpoint_ne_privkey (x y : String) :
    ("Endpoint = " ++ x = "PrivateKey = " ++ y) ↔ False :=
  endpoint_ne_of_firstChar x (by rw [firstChar_append _ _ 'P' _ rfl]; decide)

theorem endpoint_ne_dns (x y : String) :
    ("Endpoint = " ++ x = "DNS = " ++ y) ↔ False :=
  endpoint_ne_of_firstChar x (by rw [firstChar_append _ _ 'D' _ rfl]; decide)

theorem endpoint_ne_blank (x : String) :
    ("Endpoint = " ++ x = "") ↔ False :=
  endpoint_ne_of_firstChar x (by decide)

theorem endpoint_ne_peer (x : String) :
    ("Endpoint = " ++ x = "[Peer]") ↔ False :=
  endpoint_ne_of_firstChar x (by decide)

theorem endpoint_ne_pubkey (x y : String) :
    ("Endpoint = " ++ x = "PublicKey = " ++ y) ↔ False :=
  endpoint_ne_of_firstChar x (by rw [firstChar_append _ _ 'P' _ rfl]; decide)

theorem endpoint_ne_psk (x y : String) :
    ("Endpoint = " ++ x = "PresharedKey = " ++ y) ↔ False :=
  endpoint_ne_of_firstChar x (by rw [firstChar_append _ _ 'P' _ rfl]; decide)

theorem endpoint_ne_allowed (x y : String) :
    ("Endpoint = " ++ x = "AllowedIPs = " ++ y) ↔ False :=
  endpoint_ne_of_firstChar x (by rw [firstChar_append _ _ 'A' _ rfl]; decide)

theorem endpoint_ne_keepalive (x : String) :
    ("Endpoint = " ++ x = "PersistentKeepalive = 25") ↔ False :=
  endpoint_ne_of_firstChar x (by decide)

theorem endpoint_line_not_mem (st : GlobalState) (p : Peer)
    (h : optStrTruthy st.server.endpoint = false) (x : String) :
    ("Endpoint = " ++ x) ∉ clientLines st p := by
  intro hx
  cases hd : optListTruthy st.server.dns <;>
    cases hps : optStrTruthy p.preshared_key <;>
      simp [clientLines, h, hd, hps, endpoint_ne_interface,
        endpoint_ne_address, endpoint_ne_privkey, endpoint_ne_dns,
        endpoint_ne_blank, endpoint_ne_peer, endpoint_ne_pubkey,
        endpoint_ne_psk, endpoint_ne_allowed, endpoint_ne_keepalive] at hx

/-- C8.  render_client_conf fails with the unknown-peer error exactly when
the peer name is absent from peers; on a found peer the rendered lines set
AllowedIPs to the comma-joined allowed_ips of that peer, hold an Endpoint
line exactly when the server endpoint is set (a non-empty string, by
Python truthiness), and always end with the fixed line
PersistentKeepalive = 25. -/
theorem render_client_conf_spec :
    (∀ (st : GlobalState) (n : String),
      lookupPeer st n = none ↔
        render_client_conf st n = .error ("Unknown peer '" ++ n ++ "'")) ∧
    (∀ (st : GlobalState) (n : String) (p : Peer),
      lookupPeer st n = some p →
      ("AllowedIPs = " ++ joinComma p.allowed_ips) ∈ clientLines st p ∧
      (optStrTruthy st.server.endpoint = true ↔
        ∃ x, ("Endpoint = " ++ x) ∈ clientLines st p) ∧
      (clientLines st p).getLast? = some "PersistentKeepalive = 25") := by
  constructor
  · intro st n
    constructor
    · intro h; simp [render_client_conf, h]
    · intro h
      cases hl : lookupPeer st n with
      | none => rfl
      | some p => rw [render_client_conf, hl] at h; exact Except.noConfusion h
  · intro st n p _
    refine ⟨by simp [clientLines], ⟨?_, ?_⟩, ?_⟩
    · intro h
      cases he : st.server.endpoint with
      | none => rw [he] at h; exact Bool.noConfusion h
      | some e =>
        rw [he] at h
        refine ⟨e, ?_⟩
        simp [clientLines, he, h]
    · intro hx
      by_contra h
      obtain ⟨x, hmem⟩ := hx
      exact endpoint_line_not_mem st p (Bool.eq_false_iff.mpr h) x hmem
    · rw [clientLines]
      exact List.getLast?_concat _

/-- C8 witness: on the rich state, the phone peer renders with its
comma-joined allowed_ips, an Endpoint line, and the keepalive last line;
an unknown name yields the not-found error. -/
theorem render_client_conf_spec_witness :
    ("AllowedIPs = " ++
        joinComma (exRich.peers.headD ("", exPeer "" "")).2.allowed_ips) ∈
      clientLines exRich (exRich.peers.headD ("", exPeer "" "")).2 ∧
    (∃ x, ("Endpoint = " ++ x) ∈
      clientLines exRich (exRich.peers.headD ("", exPeer "" "")).2) ∧
    (clientLines exRich (exRich.peers.headD ("", exPeer "" "")).2).getLast? =
      some "PersistentKeepalive = 25" ∧
    render_client_conf exRich "nobody" =
      .error ("Unknown peer '" ++ "nobody" ++ "'") :=
  ⟨((render_client_conf_spec.2 exRich "phone" _ rfl)).1,
   ((render_client_conf_spec.2 exRich "phone" _ rfl)).2.1.mp rfl,
   ((render_client_conf_spec.2 exRich "phone" _ rfl)).2.2,
   (render_client_conf_spec.1 exRich "nobody").mp rfl⟩

/-! ## Claim C10: add_peer performs no name hygiene -/

theorem badname_mem_validatePeer (cidr : String) (net : Option (Nat × Nat))
    (n : String) (p : Peer) (seen : List String)
    (h : hasBadToken n = true) :
    ("peer name interdit: " ++ pyRepr n ++ " (chemins interdits)") ∈
      (validatePeer cidr net n p seen).1 := by
  unfold validatePeer
  cases hp : parseInterfaceAddr p.ip with
  | none => simp [h]
  | some apl => obtain ⟨a, pl⟩ := apl; simp [h]

theorem badname_mem_validatePeers (cidr : String) (net : Option (Nat × Nat)) :
    ∀ (peers : List (String × Peer)) (seen : List String) (n : String)
      (p : Peer),
      (n, p) ∈ peers → hasBadToken n = true →
      ("peer name interdit: " ++ pyRepr n ++ " (chemins interdits)") ∈
        validatePeers cidr net seen peers := by
  intro peers
  induction peers with
  | nil => intro seen n p h _; cases h
  | cons hd tl ih =>
    intro seen n p hmem hbad
    obtain ⟨m, q⟩ := hd
    rw [validatePeers]
    rcases List.mem_cons.mp hmem with heq | hmt
    · obtain ⟨rfl, rfl⟩ := Prod.mk.injEq .. ▸ heq
      exact List.mem_append_left _
        (badname_mem_validatePeer cidr net n p seen hbad)
    · exact List.mem_append_right _ (ih _ n p hmt hbad)

/-- C10 (amended).  add_peer performs no name-hygiene check: whenever the
name is not yet a key of peers AND the IP allocation succeeds, it inserts
a peer with that exact name (path-traversal tokens included) carrying the
allocated IP and allowed_ips = [network_cidr]; it reports the duplicate
error exactly when the name is already a key; and a stored peer whose
name holds a path-traversal token makes validate_state non-empty, so such
names are rejected only at the validate/apply stage.  (When the
allocation fails, the allocation error propagates even for a fresh name,
which is the one deviation from the claim as stated.) -/
theorem add_peer_no_name_hygiene_spec :
    (∀ (st : GlobalState) (name priv pub : String) (psk : Option String)
      (ip : String),
      name ∉ peerNames st →
      allocate_ip st = .ok ip →
      add_peer st name priv pub psk =
        .ok { st with peers := st.peers ++
            [(name, ⟨name, priv, pub, ip, [st.network_cidr], psk⟩)] }
          ⟨name, priv, pub, ip, [st.network_cidr], psk⟩) ∧
    (∀ (st : GlobalState) (name priv pub : String) (psk : Option String),
      add_peer st name priv pub psk = .duplicate ↔ name ∈ peerNames st) ∧
    (∀ (st : GlobalState) (name : String) (p : Peer),
      (name, p) ∈ st.peers → hasBadToken name = true →
      validate_state st ≠ []) := by
  refine ⟨?_, ?_, ?_⟩
  · intro st name priv pub psk ip h halloc
    simp [add_peer, h, halloc]
  · intro st name priv pub psk
    constructor
    · intro h
      by_cases hm : name ∈ peerNames st
      · exact hm
      · rw [add_peer] at h
        simp only [List.elem_iff] at h
        rw [if_neg (by simpa using hm)] at h
        cases halloc : allocate_ip st <;> rw [halloc] at h <;>
          exact AddPeerResult.noConfusion h
    · intro h
      simp [add_peer, h]
  · intro st name p hmem hbad
    refine List.ne_nil_of_mem
      (a := "peer name interdit: " ++ pyRepr name ++ " (chemins interdits)") ?_
    rw [validate_state]
    exact List.mem_append_right _
      (badname_mem_validatePeers _ _ st.peers [] name p hmem hbad)

/-- C10 witness: the path-traversal name ../pwn, absent from the valid
state, is inserted verbatim with the allocated 10.8.0.3/32 and it does
carry a forbidden token. -/
theorem add_peer_no_name_hygiene_spec_witness :
    add_peer exValid "../pwn" "k" "K" none =
      .ok { exValid with peers := exValid.peers ++
          [("../pwn", ⟨"../pwn", "k", "K", "10.8.0.3/32",
            [exValid.network_cidr], none⟩)] }
        ⟨"../pwn", "k", "K", "10.8.0.3/32", [exValid.network_cidr], none⟩ ∧
    hasBadToken "../pwn" = true :=
  ⟨add_peer_no_name_hygiene_spec.1 exValid "../pwn" "k" "K" none
      "10.8.0.3/32" (by decide) rfl, rfl⟩

/-- C10 counterexample to the claim as stated: on the exhausted /30
state, add_peer fails for the fresh name ../evil with the exhaustion
error rather than succeeding. -/
theorem add_peer_claim_counterexample :
    "../evil" ∉ peerNames exFull30 ∧
    add_peer exFull30 "../evil" "k" "K" none = .allocExhausted :=
  ⟨by decide, rfl⟩

/-! ## Claim C7: firewall enable idempotence -/

theorem startsWithL_self_append :
    ∀ (n post : List Char), startsWithL n (n ++ post) = true := by
  intro n
  induction n with
  | nil => intro post; rfl
  | cons c t ih => intro post; simp [startsWithL, ih]

theorem containsSeq_of_startsWithL {n hay : List Char}
    (h : startsWithL n hay = true) : containsSeq n hay = true := by
  cases hay with
  | nil => exact h
  | cons c rest => simp [containsSeq, h]

theorem containsSeq_mid :
    ∀ (pre n post : List Char), containsSeq n (pre ++ (n ++ post)) = true := by
  intro pre
  induction pre with
  | nil =>
    intro n post
    exact containsSeq_of_startsWithL (startsWithL_self_append n post)
  | cons c t ih =>
    intro n post
    simp [containsSeq, ih]

theorem pyContains_of_data (needle hay : String) (pre post : List Char)
    (h : hay.data = pre ++ needle.data ++ post) :
    pyContains needle hay = true := by
  unfold pyContains
  rw [h, List.append_assoc]
  exact containsSeq_mid pre needle.data post

theorem jumpLine_eq (parent chain : String) :
    "-A " ++ parent ++ " " ++ joinSp ["-j", chain] =
      needleFor parent chain := by
  apply String.ext
  show ("-A " ++ parent ++ " " ++ ("-j" ++ " " ++ chain)).data =
    ("-A " ++ parent ++ " -j " ++ chain).data
  simp only [String.data_append, List.append_assoc]
  rfl

theorem joinNL_head_data (b : String) (l : List String) :
    ∃ t, (joinNL (b :: l)).data = b.data ++ t := by
  cases l with
  | nil => exact ⟨[], by simp [joinNL]⟩
  | cons x xs =>
    refine ⟨'\n' :: (joinNL (x :: xs)).data, ?_⟩
    show ((b ++ "\n") ++ joinNL (x :: xs)).data = _
    rw [String.data_append, String.data_append]
    simp

theorem renderParent_jump_contains (parent chain : String) (rest : List Rule) :
    pyContains (needleFor parent chain)
      (renderParent parent (["-j", chain] :: rest)) = true := by
  unfold renderParent
  rw [List.map_cons, jumpLine_eq]
  obtain ⟨t, ht⟩ := joinNL_head_data (needleFor parent chain)
    (rest.map (fun r => "-A " ++ parent ++ " " ++ joinSp r))
  refine pyContains_of_data _ _ (("-P " ++ parent ++ " ACCEPT").data ++ ['\n'])
    t ?_
  show (("-P " ++ parent ++ " ACCEPT" ++ "\n") ++
    joinNL (needleFor parent chain ::
      rest.map (fun r => "-A " ++ parent ++ " " ++ joinSp r))).data = _
  rw [String.data_append, String.data_append, ht]
  simp

theorem ensureJumpRules_fix (parent chain : String) (r : List Rule) :
    ensureJumpRules parent chain (ensureJumpRules parent chain r) =
      ensureJumpRules parent chain r := by
  by_cases hc :
      pyContains (needleFor parent chain) (renderParent parent r) = true
  · have hinner : ensureJumpRules parent chain r = r := by
      rw [ensureJumpRules, if_pos hc]
    rw [hinner, hinner]
  · have hinner : ensureJumpRules parent chain r = ["-j", chain] :: r := by
      rw [ensureJumpRules, if_neg hc]
    rw [hinner, ensureJumpRules,
      if_pos (renderParent_jump_contains parent chain r)]

theorem chainNames_updateChain (t : List (String × List Rule)) (c : String)
    (f : List Rule → List Rule) :
    chainNames (updateChain t c f) = chainNames t := by
  unfold chainNames updateChain
  rw [List.map_map]
  congr 1
  funext e
  by_cases h : e.1 = c <;> simp [Function.comp, h]

theorem updateChain_updateChain (t : List (String × List Rule)) (c : String)
    (f g : List Rule → List Rule) :
    updateChain (updateChain t c f) c g =
      updateChain t c (fun v => g (f v)) := by
  unfold updateChain
  rw [List.map_map]
  congr 1
  funext e
  by_cases h : e.1 = c <;> simp [Function.comp, h]

theorem updateChain_comm (t : List (String × List Rule)) (c d : String)
    (f g : List Rule → List Rule) (hcd : c ≠ d) :
    updateChain (updateChain t c f) d g =
      updateChain (updateChain t d g) c f := by
  unfold updateChain
  rw [List.map_map, List.map_map]
  congr 1
  funext e
  by_cases h1 : e.1 = c
  · have h2 : ¬ e.1 = d := fun hh => hcd (h1.symm.trans hh)
    simp [Function.comp, h1, h2, hcd, hcd.symm]
  · by_cases h2 : e.1 = d <;> simp [Function.comp, h1, h2, hcd, hcd.symm]

theorem ensureChainT_of_contains (t : List (String × List Rule)) (c : String)
    (h : (chainNames t).contains c = true) : ensureChainT t c = t := by
  rw [ensureChainT, if_pos h]

theorem contains_ensureChainT_self (t : List (String × List Rule))
    (c : String) : (chainNames (ensureChainT t c)).contains c = true := by
  by_cases h : (chainNames t).contains c = true
  · rw [ensureChainT, if_pos h]; exact h
  · rw [ensureChainT, if_neg h]
    refine List.elem_iff.mpr ?_
    simp [chainNames]

theorem contains_ensureChainT_mono (t : List (String × List Rule))
    (c d : String) (h : (chainNames t).contains d = true) :
    (chainNames (ensureChainT t c)).contains d = true := by
  by_cases hc : (chainNames t).contains c = true
  · rw [ensureChainT, if_pos hc]; exact h
  · rw [ensureChainT, if_neg hc]
    have hm : d ∈ chainNames t := List.elem_iff.mp h
    refine List.elem_iff.mpr ?_
    simp only [chainNames, List.map_append, List.mem_append]
    exact Or.inl hm

theorem enableFilterChains_eq (ct : Bool) (wg wan : String) (lp : Int)
    (fc : List (String × List Rule)) :
    enableFilterChains ct wg wan lp fc =
      updateChain (updateChain (ensureChainT (ensureChainT fc CH_IN) CH_FWD)
          CH_IN (fun _ => [udpRule lp]))
        CH_FWD
        (fun _ => (if ct then [conntrackRule] else []) ++
          [wgWanRule wg wan]) := by
  have hne : CH_FWD ≠ CH_IN := by decide
  cases ct
  · show updateChain (updateChain (updateChain (updateChain
      (ensureChainT (ensureChainT fc CH_IN) CH_FWD)
        CH_IN (fun _ => ([] : List Rule)))
        CH_FWD (fun _ => ([] : List Rule)))
        CH_IN (fun rs => rs ++ [udpRule lp]))
        CH_FWD (fun rs => rs ++ [wgWanRule wg wan]) = _
    rw [updateChain_comm _ CH_FWD CH_IN _ _ hne,
      updateChain_updateChain, updateChain_updateChain]
    rfl
  · show updateChain (updateChain (updateChain (updateChain (updateChain
      (ensureChainT (ensureChainT fc CH_IN) CH_FWD)
        CH_IN (fun _ => ([] : List Rule)))
        CH_FWD (fun _ => ([] : List Rule)))
        CH_IN (fun rs => rs ++ [udpRule lp]))
        CH_FWD (fun rs => rs ++ [conntrackRule]))
        CH_FWD (fun rs => rs ++ [wgWanRule wg wan]) = _
    rw [updateChain_comm _ CH_FWD CH_IN _ _ hne,
      updateChain_updateChain, updateChain_updateChain,
      updateChain_updateChain]
    rfl

theorem enableFilterChains_fix (ct : Bool) (wg wan : String) (lp : Int)
    (fc : List (String × List Rule)) :
    enableFilterChains ct wg wan lp (enableFilterChains ct wg wan lp fc) =
      enableFilterChains ct wg wan lp fc := by
  have hne : CH_FWD ≠ CH_IN := by decide
  simp only [enableFilterChains_eq]
  have hIn : (chainNames
      (updateChain (updateChain (ensureChainT (ensureChainT fc CH_IN) CH_FWD)
          CH_IN (fun _ => [udpRule lp]))
        CH_FWD (fun _ => (if ct then [conntrackRule] else []) ++
          [wgWanRule wg wan]))).contains CH_IN = true := by
    rw [chainNames_updateChain, chainNames_updateChain]
    exact contains_ensureChainT_mono _ _ _ (contains_ensureChainT_self _ _)
  rw [ensureChainT_of_contains _ _ hIn]
  have hFwd : (chainNames
      (updateChain (updateChain (ensureChainT (ensureChainT fc CH_IN) CH_FWD)
          CH_IN (fun _ => [udpRule lp]))
        CH_FWD (fun _ => (if ct then [conntrackRule] else []) ++
          [wgWanRule wg wan]))).contains CH_FWD = true := by
    rw [chainNames_updateChain, chainNames_updateChain]
    exact contains_ensureChainT_self _ _
  rw [ensureChainT_of_contains _ _ hFwd]
  rw [updateChain_comm _ CH_FWD CH_IN _ _ hne,
    updateChain_updateChain, updateChain_updateChain]

theorem enableNatChains_eq (wan : String) (nc : List (String × List Rule)) :
    enableNatChains wan nc =
      updateChain (ensureChainT nc CH_NAT) CH_NAT
        (fun _ => [masqRule wan]) := by
  unfold enableNatChains flushChainT appendRuleT
  rw [updateChain_updateChain]
  rfl

theorem enableNatChains_fix (wan : String) (nc : List (String × List Rule)) :
    enableNatChains wan (enableNatChains wan nc) = enableNatChains wan nc := by
  simp only [enableNatChains_eq]
  have h : (chainNames (updateChain (ensureChainT nc CH_NAT) CH_NAT
      (fun _ => [masqRule wan]))).contains CH_NAT = true := by
    rw [chainNames_updateChain]
    exact contains_ensureChainT_self _ _
  rw [ensureChainT_of_contains _ _ h, updateChain_updateChain]

theorem enableFilter_fix (env : FwEnv) (wg wan : String) (lp : Int)
    (s : IptState) :
    enableFilter env wg wan lp (enableFilter env wg wan lp s) =
      enableFilter env wg wan lp s := by
  cases s
  simp [enableFilter, enableFilterChains_fix, ensureJumpRules_fix]

theorem enableNat_fix (wan : String) (s : IptState) :
    enableNat wan (enableNat wan s) = enableNat wan s := by
  cases s
  simp [enableNat, enableNatChains_fix, ensureJumpRules_fix]

theorem enableFilter_enableNat_comm (env : FwEnv) (wg wan wan2 : String)
    (lp : Int) (s : IptState) :
    enableFilter env wg wan lp (enableNat wan2 s) =
      enableNat wan2 (enableFilter env wg wan lp s) := by
  cases s
  rfl

theorem enable_firewall_ok_build (env : FwEnv) (wg : String) (lp : Int)
    (wo : Option String) (s : IptState) (wan : String)
    (hroot : env.isRoot = true) (hipt : env.hasIptables = true)
    (hip : env.hasIp = true)
    (hwan : wanResolve wo env = .ok wan) :
    enable_firewall env wg lp wo s = .ok
      ((if s.natAvail then enableNat wan (enableFilter env wg wan lp s)
        else enableFilter env wg wan lp s),
       ⟨wan, "iptables", true, true, env.conntrackOk, s.natAvail,
        (if env.conntrackOk then ""
         else "conntrack unavailable; skipped ESTABLISHED,RELATED rule. ") ++
          (if s.natAvail then ""
           else "nat table unavailable (missing iptable_nat/nf_nat); no internet for VPN clients. ")⟩) := by
  unfold enable_firewall
  rw [hroot, hipt, hip, hwan]
  rfl

theorem enable_firewall_ok_inv (env : FwEnv) (wg : String) (lp : Int)
    (wo : Option String) (s s' : IptState) (r : FirewallResult)
    (h : enable_firewall env wg lp wo s = .ok (s', r)) :
    env.isRoot = true ∧ env.hasIptables = true ∧ env.hasIp = true ∧
    ∃ wan, wanResolve wo env = .ok wan ∧
      s' = (if s.natAvail then enableNat wan (enableFilter env wg wan lp s)
            else enableFilter env wg wan lp s) ∧
      r = ⟨wan, "iptables", true, true, env.conntrackOk, s.natAvail,
        (if env.conntrackOk then ""
         else "conntrack unavailable; skipped ESTABLISHED,RELATED rule. ") ++
          (if s.natAvail then ""
           else "nat table unavailable (missing iptable_nat/nf_nat); no internet for VPN clients. ")⟩ := by
  cases hroot : env.isRoot
  · unfold enable_firewall at h; rw [hroot] at h; simp at h
  cases hipt : env.hasIptables
  · unfold enable_firewall at h; rw [hroot, hipt] at h; simp at h
  cases hip : env.hasIp
  · unfold enable_firewall at h; rw [hroot, hipt, hip] at h; simp at h
  cases hwan : wanResolve wo env with
  | error e =>
    unfold enable_firewall at h
    rw [hroot, hipt, hip, hwan] at h
    simp at h
  | ok wan =>
    have hb := enable_firewall_ok_build env wg lp wo s wan hroot hipt hip hwan
    rw [h] at hb
    injection hb with hb1
    injection hb1 with hb2 hb3
    exact ⟨rfl, rfl, rfl, wan, rfl, hb2, hb3⟩

theorem countTarget_jump_cons (c : String) (rest : List Rule) :
    countTarget (["-j", c] :: rest) c = countTarget rest c + 1 := by
  simp [countTarget, List.countP_cons, targetOf]

theorem countTarget_eq_zero (rules : List Rule) (c : String)
    (h : ∀ rl ∈ rules, targetOf rl ≠ some c) : countTarget rules c = 0 := by
  rw [countTarget, List.countP_eq_zero]
  intro a ha
  simpa using h a ha

/-- C7 (amended).  enable_firewall is idempotent: the state and result it
produces are a fixed point, so a second run with identical arguments
changes nothing.  The exactly-one-jump guarantee is conditional on the
code's own insertion test, which is a substring search for the needle
"-A PARENT -j CHAIN" in the parent's -S listing: the run leaves exactly
one jump into CH_IN from INPUT, one into CH_FWD from FORWARD and, when a
NAT table is available, one into CH_NAT from POSTROUTING, provided the
starting built-in chain holds no rule targeting the private chain AND
its listing does not contain that needle as a substring.  Both provisos
are needed: pre-existing duplicate jumps are kept (the counterexample),
and a jump to an alias-named chain such as VPNWG_INX makes the substring
test fire so that no jump at all is inserted.  So "exactly one jump, no
duplicates" does not hold from every starting ruleset as the claim
states. -/
theorem enable_firewall_idempotent_spec :
    (∀ (env : FwEnv) (wg : String) (lp : Int) (wo : Option String)
       (s s' : IptState) (r : FirewallResult),
      enable_firewall env wg lp wo s = .ok (s', r) →
      enable_firewall env wg lp wo s' = .ok (s', r)) ∧
    (∀ (env : FwEnv) (wg : String) (lp : Int) (wo : Option String)
       (s s' : IptState) (r : FirewallResult),
      enable_firewall env wg lp wo s = .ok (s', r) →
      pyContains (needleFor "INPUT" CH_IN)
        (renderParent "INPUT" s.inputRules) = false →
      (∀ rl ∈ s.inputRules, targetOf rl ≠ some CH_IN) →
      countTarget s'.inputRules CH_IN = 1) ∧
    (∀ (env : FwEnv) (wg : String) (lp : Int) (wo : Option String)
       (s s' : IptState) (r : FirewallResult),
      enable_firewall env wg lp wo s = .ok (s', r) →
      pyContains (needleFor "FORWARD" CH_FWD)
        (renderParent "FORWARD" s.forwardRules) = false →
      (∀ rl ∈ s.forwardRules, targetOf rl ≠ some CH_FWD) →
      countTarget s'.forwardRules CH_FWD = 1) ∧
    (∀ (env : FwEnv) (wg : String) (lp : Int) (wo : Option String)
       (s s' : IptState) (r : FirewallResult),
      enable_firewall env wg lp wo s = .ok (s', r) →
      s.natAvail = true →
      pyContains (needleFor "POSTROUTING" CH_NAT)
        (renderParent "POSTROUTING" s.postroutingRules) = false →
      (∀ rl ∈ s.postroutingRules, targetOf rl ≠ some CH_NAT) →
      countTarget s'.postroutingRules CH_NAT = 1) := by
  refine ⟨?_, ?_, ?_, ?_⟩
  · intro env wg lp wo s s' r h
    obtain ⟨hroot, hipt, hip, wan, hwan, hs', hr⟩ :=
      enable_firewall_ok_inv env wg lp wo s s' r h
    rw [enable_firewall_ok_build env wg lp wo s' wan hroot hipt hip hwan]
    cases hnat : s.natAvail
    · have hs2 : s' = enableFilter env wg wan lp s := by
        rw [hs', hnat]; rfl
      have e1 : (enableFilter env wg wan lp s).natAvail = false := hnat
      subst hs2
      subst hr
      rw [e1, hnat, enableFilter_fix]
      rfl
    · have hs2 : s' = enableNat wan (enableFilter env wg wan lp s) := by
        rw [hs', hnat]; rfl
      have e1 : (enableNat wan (enableFilter env wg wan lp s)).natAvail =
        true := hnat
      subst hs2
      subst hr
      rw [e1, hnat, enableFilter_enableNat_comm, enableFilter_fix,
        enableNat_fix]
      rfl
  · intro env wg lp wo s s' r h hfree hall
    obtain ⟨hroot, hipt, hip, wan, hwan, hs', hr⟩ :=
      enable_firewall_ok_inv env wg lp wo s s' r h
    have hin : s'.inputRules = ensureJumpRules "INPUT" CH_IN s.inputRules := by
      rw [hs']; cases hnat : s.natAvail <;> rfl
    rw [hin, ensureJumpRules, if_neg (by simp [hfree]),
      countTarget_jump_cons, countTarget_eq_zero _ _ hall]
  · intro env wg lp wo s s' r h hfree hall
    obtain ⟨hroot, hipt, hip, wan, hwan, hs', hr⟩ :=
      enable_firewall_ok_inv env wg lp wo s s' r h
    have hfw : s'.forwardRules =
        ensureJumpRules "FORWARD" CH_FWD s.forwardRules := by
      rw [hs']; cases hnat : s.natAvail <;> rfl
    rw [hfw, ensureJumpRules, if_neg (by simp [hfree]),
      countTarget_jump_cons, countTarget_eq_zero _ _ hall]
  · intro env wg lp wo s s' r h hnat hfree hall
    obtain ⟨hroot, hipt, hip, wan, hwan, hs', hr⟩ :=
      enable_firewall_ok_inv env wg lp wo s s' r h
    have hpo : s'.postroutingRules =
        ensureJumpRules "POSTROUTING" CH_NAT s.postroutingRules := by
      rw [hs', hnat]; rfl
    rw [hpo, ensureJumpRules, if_neg (by simp [hfree]),
      countTarget_jump_cons, countTarget_eq_zero _ _ hall]

/-- C7 witness: the state and result enable_firewall produces from the
empty ruleset are a fixed point of a second run with the same
arguments. -/
theorem enable_firewall_idempotent_spec_witness :
    enable_firewall fwEnvOk "wg0" 51820 none iptEnabled =
      .ok (iptEnabled, fwResOk) :=
  enable_firewall_idempotent_spec.1 fwEnvOk "wg0" 51820 none ipt0 iptEnabled
    fwResOk rfl

/-- C7 counterexample to the claim as stated: from a ruleset in which
INPUT already holds two jumps into CH_IN, enable_firewall leaves both in
place — the run succeeds but INPUT ends with two jump rules into the
private chain, not exactly one. -/
theorem enable_firewall_claim_counterexample :
    enable_firewall fwEnvOk "wg0" 51820 (some "eth0") iptDupJump =
      .ok (iptDupEnabled, fwResDup) ∧
    countTarget iptDupEnabled.inputRules CH_IN = 2 :=
  ⟨rfl, rfl⟩

end WgBackend
